import Mathlib

/-!
Verification of the data-access layer of the Itihas Explorer repository
(`utils/data_fetcher.py`, `config.py`).

The Python code is shallowly embedded: JSON values returned by the Wikidata
SPARQL endpoint are modelled by an inductive `Json` type, Python operations
that can raise (`d[k]`, `d.get`, `str.replace` on a non-string, iteration,
`datetime.fromisoformat`) are modelled in the `Except PyErr` monad, the
network is an explicit function `String → Option Json` (`none` models the
`requests.exceptions.RequestException` branch of `run_sparql_query`, which
returns `None`), and `datetime.datetime.now()` is passed explicitly.
-/

/-- A JSON value, as returned by `response.json()`. Objects keep their fields
in order, as Python dicts do. -/
inductive Json where
  | null
  | bool (b : Bool)
  | num (n : Int)
  | str (s : String)
  | arr (elems : List Json)
  | obj (fields : List (String × Json))

/-- Python exceptions that the embedded code paths can raise. -/
inductive PyErr where
  | keyError (k : String)
  | typeError
  | attributeError
  | valueError
  | indexError

/-- Python truthiness of a JSON value (`if data:` / `if bindings:`). -/
def Json.truthy : Json → Bool
  | .null => false
  | .bool b => b
  | .num n => n != 0
  | .str s => s != ""
  | .arr xs => !xs.isEmpty
  | .obj kvs => !kvs.isEmpty

/-- Python truthiness of an optional JSON value (`None` is falsy). -/
def pyTruthy : Option Json → Bool
  | none => false
  | some j => j.truthy

/-- Python `d[k]` on a JSON value: field lookup on an object, `KeyError` when
the key is absent, `TypeError` when subscripting a non-object with a string
key. -/
def Json.getItem : Json → String → Except PyErr Json
  | .obj kvs, k =>
    match kvs.lookup k with
    | some v => .ok v
    | none => .error (.keyError k)
  | _, _ => .error .typeError

/-- Python `d.get(k, default)`: only objects (dicts) have `.get`; calling it
on anything else raises `AttributeError`. -/
def Json.getD : Json → String → Json → Except PyErr Json
  | .obj kvs, k, d => .ok ((kvs.lookup k).getD d)
  | _, _, _ => .error .attributeError

/-- Python `for x in j`: lists iterate their elements, dicts their keys,
strings their characters; other values raise `TypeError`. -/
def Json.asIter : Json → Except PyErr (List Json)
  | .arr xs => .ok xs
  | .obj kvs => .ok (kvs.map (fun kv => Json.str kv.fst))
  | .str s => .ok (s.toList.map (fun c => Json.str (String.mk [c])))
  | _ => .error .typeError

/-- Holds exactly for string JSON values; the SPARQL JSON result format makes
every `"value"` field a string. -/
def Json.isStr : Json → Bool
  | .str _ => true
  | _ => false

/-! ### Python string primitives

`str.split(sep)` with an explicit one-character separator, `sep.join`,
`str.replace`, the `in` operator and `str.endswith`, modelled over character
lists so that the split/join round trip is provable. -/

/-- Python `s.split(c)` on a character list: splits at every occurrence of
`c`, keeping empty pieces; the result is never empty (`''.split(c) == ['']`). -/
def splitChar (c : Char) : List Char → List (List Char)
  | [] => [[]]
  | x :: xs =>
    if x = c then [] :: splitChar c xs
    else
      match splitChar c xs with
      | w :: ws => (x :: w) :: ws
      | [] => [[x]]

/-- Python `c.join`: interleave the separator character between the pieces. -/
def joinChar (c : Char) : List (List Char) → List Char
  | [] => []
  | [w] => w
  | w :: ws => w ++ c :: joinChar c ws

/-- Python `s.split(sep)` for a one-character separator, on strings. -/
def pySplit (c : Char) (s : String) : List String :=
  (splitChar c s.toList).map String.mk

/-- Python `sep.join(parts)` for a one-character separator. -/
def pyJoin (c : Char) (parts : List String) : String :=
  String.mk (joinChar c (parts.map String.toList))

/-- Python `s.replace('Z', '')`: drop every occurrence of the character. -/
def pyStripChar (c : Char) (s : String) : String :=
  String.mk (s.toList.filter (fun x => x != c))

/-- Tests whether `needle` occurs at the start of `hay`. -/
def startsWithL : List Char → List Char → Bool
  | [], _ => true
  | _ :: _, [] => false
  | n :: ns, h :: hs => n == h && startsWithL ns hs

/-- Tests whether `needle` occurs somewhere in `hay` (Python `needle in hay`). -/
def occursIn (needle : List Char) : List Char → Bool
  | [] => needle.isEmpty
  | h :: hs => startsWithL needle (h :: hs) || occursIn needle hs

/-- Python `needle in hay` on strings. -/
def pyIn (needle hay : String) : Bool :=
  occursIn needle.toList hay.toList

/-- Python `s.endswith(suf)`. -/
def pyEndsWith (s suf : String) : Bool :=
  startsWithL suf.toList.reverse s.toList.reverse

/-- Python `s.lower()` (ASCII is all the code relies on). -/
def pyLower (s : String) : String :=
  String.mk (s.toList.map Char.toLower)

/-! ### `datetime` model

`datetime.datetime.fromisoformat` as used by the code: it receives Wikidata
timestamps with the `Z` stripped, i.e. `YYYY-MM-DD` optionally followed by a
one-character separator and `HH`, `HH:MM` or `HH:MM:SS`. Any other shape, and
any out-of-range field (Python's `MINYEAR` is 1), raises `ValueError`. -/

structure PyDateTime where
  year : Nat
  month : Nat
  day : Nat
  hour : Nat
  minute : Nat
  second : Nat

def isDigitChar (c : Char) : Bool := '0' ≤ c && c ≤ '9'

def digitVal (c : Char) : Nat := c.toNat - 48

def twoDigits (c1 c2 : Char) : Option Nat :=
  if isDigitChar c1 && isDigitChar c2 then some (10 * digitVal c1 + digitVal c2)
  else none

def fourDigits (c1 c2 c3 c4 : Char) : Option Nat :=
  if isDigitChar c1 && isDigitChar c2 && isDigitChar c3 && isDigitChar c4 then
    some (1000 * digitVal c1 + 100 * digitVal c2 + 10 * digitVal c3 + digitVal c4)
  else none

def daysInMonth (y m : Nat) : Nat :=
  if m = 2 then
    if (y % 4 = 0 && y % 100 != 0) || y % 400 = 0 then 29 else 28
  else if m = 1 || m = 3 || m = 5 || m = 7 || m = 8 || m = 10 || m = 12 then 31
  else 30

def mkDateTime (y mo d h mi s : Nat) : Except PyErr PyDateTime :=
  if 1 ≤ y && 1 ≤ mo && mo ≤ 12 && 1 ≤ d && d ≤ daysInMonth y mo
      && h ≤ 23 && mi ≤ 59 && s ≤ 59 then
    .ok ⟨y, mo, d, h, mi, s⟩
  else .error .valueError

/-- The time-of-day part: empty, `HH`, `HH:MM` or `HH:MM:SS`. -/
def parseTimePart : List Char → Option (Nat × Nat × Nat)
  | [] => some (0, 0, 0)
  | [h1, h2] => (twoDigits h1 h2).map (fun h => (h, 0, 0))
  | [h1, h2, ':', m1, m2] =>
    match twoDigits h1 h2, twoDigits m1 m2 with
    | some h, some m => some (h, m, 0)
    | _, _ => none
  | [h1, h2, ':', m1, m2, ':', s1, s2] =>
    match twoDigits h1 h2, twoDigits m1 m2, twoDigits s1 s2 with
    | some h, some m, some s => some (h, m, s)
    | _, _, _ => none
  | _ => none

/-- Python `datetime.datetime.fromisoformat`. -/
def fromisoformat (s : String) : Except PyErr PyDateTime :=
  match s.toList with
  | y1 :: y2 :: y3 :: y4 :: '-' :: m1 :: m2 :: '-' :: d1 :: d2 :: rest =>
    match fourDigits y1 y2 y3 y4, twoDigits m1 m2, twoDigits d1 d2 with
    | some y, some mo, some d =>
      match rest with
      | [] => mkDateTime y mo d 0 0 0
      | _sep :: timePart =>
        match parseTimePart timePart with
        | some (h, mi, sec) => mkDateTime y mo d h mi sec
        | none => .error .valueError
    | _, _, _ => .error .valueError
  | _ => .error .valueError

def monthName : Nat → String
  | 1 => "January"
  | 2 => "February"
  | 3 => "March"
  | 4 => "April"
  | 5 => "May"
  | 6 => "June"
  | 7 => "July"
  | 8 => "August"
  | 9 => "September"
  | 10 => "October"
  | 11 => "November"
  | 12 => "December"
  | _ => ""

def pad2 (n : Nat) : String :=
  if n < 10 then "0" ++ toString n else toString n

/-- `.strftime('%d %B %Y')` as used by `get_timeline_events`. -/
def strftimeDMY (d : PyDateTime) : String :=
  pad2 d.day ++ " " ++ monthName d.month ++ " " ++ toString d.year

/-- Chronological order on the model of `datetime` values (what the SPARQL
`ORDER BY ?date` sorts by). -/
def dtLE (a b : PyDateTime) : Bool :=
  if a.year != b.year then a.year < b.year
  else if a.month != b.month then a.month < b.month
  else if a.day != b.day then a.day < b.day
  else if a.hour != b.hour then a.hour < b.hour
  else if a.minute != b.minute then a.minute < b.minute
  else a.second ≤ b.second

/-- Calendar-date order (year, month, day), ignoring the time of day: the
order of the formatted `%d %B %Y` strings produced for the timeline. -/
def dateLE (a b : PyDateTime) : Bool :=
  if a.year != b.year then a.year < b.year
  else if a.month != b.month then a.month < b.month
  else a.day ≤ b.day

/-! ### Static configuration (`config.py`) -/

def LANGUAGES : List (String × String) :=
  [("English", "en"), ("हिंदी (Hindi)", "hi"), ("தமிழ் (Tamil)", "ta"),
   ("বাংলা (Bengali)", "bn"), ("ಕನ್ನಡ (Kannada)", "kn")]

structure RegionConfig where
  q_code : String
  featured_figure : String
  featured_monument : String

def REGIONS : List (String × RegionConfig) :=
  [("Karnataka", ⟨"Q1185", "Q3349636", "Q34998"⟩),
   ("Maharashtra", ⟨"Q1191", "Q43416", "Q11438"⟩),
   ("Tamil Nadu", ⟨"Q1445", "Q372138", "Q24916262"⟩),
   ("Uttar Pradesh", ⟨"Q1498", "Q80093", "Q9542"⟩),
   ("West Bengal", ⟨"Q1588", "Q2149", "Q190691"⟩)]

/-! ### Query construction and the SPARQL client (`utils/data_fetcher.py`)

The f-string query texts, with `\x7b`/`\x7d` denoting the literal braces that
Python's `{{`/`}}` produce. The network is an explicit `String → Option Json`:
`none` is the `requests.exceptions.RequestException` branch, in which
`run_sparql_query` shows `st.error` and returns `None`. -/

def entityDetailsQuery (entity_q_code lang_code : String) : String :=
  "\n    SELECT ?label ?description ?article WHERE \x7b\n      BIND(wd:" ++
  entity_q_code ++
  " AS ?item)\n      ?item rdfs:label ?label.\n      OPTIONAL \x7b ?item schema:description ?description. FILTER(LANG(?description) = \"" ++
  lang_code ++
  "\") \x7d\n      OPTIONAL \x7b\n        ?article schema:about ?item ;\n                 schema:inLanguage \"" ++
  lang_code ++
  "\" ;\n                 schema:isPartOf <https://" ++
  lang_code ++
  ".wikipedia.org/>.\n      \x7d\n      FILTER(LANG(?label) = \"" ++
  lang_code ++
  "\")\n    \x7d LIMIT 1\n    "

def onThisDayQuery (region_q_code lang_code : String) (month day : Nat) : String :=
  "\n    SELECT ?eventLabel ?date WHERE \x7b\n      ?event wdt:P17 wd:Q668 . # Is in India\n      ?event p:P131 ?statement .\n      ?statement ps:P131 wd:" ++
  region_q_code ++
  " . # Located in region\n      ?event wdt:P585 ?date.\n      FILTER(MONTH(?date) = " ++
  toString month ++
  " && DAY(?date) = " ++
  toString day ++
  ")\n      SERVICE wikibase:label \x7b bd:serviceParam wikibase:language \"" ++
  lang_code ++
  ",en\". \x7d\n    \x7d LIMIT 5\n    "

def timelineQuery (region_q_code lang_code : String) : String :=
  "\n    SELECT ?eventLabel ?eventDescription ?date WHERE \x7b\n      ?event wdt:P31/wdt:P279* wd:Q198. # Instance of \x27historical event\x27 or its subclasses\n      ?event p:P131 ?statement .\n      ?statement ps:P131 wd:" ++
  region_q_code ++
  " .\n      ?event wdt:P585 ?date.\n      SERVICE wikibase:label \x7b bd:serviceParam wikibase:language \"" ++
  lang_code ++
  ",en\". \x7d\n    \x7d\n    ORDER BY ?date\n    LIMIT 25\n    "

/-- Function `run_sparql_query`: sends the query; on a `RequestException` the source
shows an inline error and returns `None`, which the explicit network function
already models, so the wrapper is the network call itself. -/
def run_sparql_query (net : String → Option Json) (query : String) : Option Json :=
  net query

/-- Python `j[0]`. -/
def Json.getIdx0 : Json → Except PyErr Json
  | .arr [] => .error .indexError
  | .arr (x :: _) => .ok x
  | .str s =>
    match s.toList with
    | [] => .error .indexError
    | c :: _ => .ok (.str (String.mk [c]))
  | .obj _ => .error (.keyError "0")
  | _ => .error .typeError

/-- A string attribute access (`.split`, `.replace`) on a Python value:
succeeds only on strings, raises `AttributeError` otherwise. -/
def pyAsStr : Json → Except PyErr String
  | .str s => .ok s
  | _ => .error .attributeError

/-- The result record of `get_entity_details`: the dict
`{"label": ..., "description": ..., "page_title": ...}`. `label` and
`description` hold whatever `.get('value', default)` returned; `page_title`
went through `.split('/')[-1]` and is therefore a string. -/
structure EntityDetails where
  label : Json
  description : Json
  page_title : String

/-- Function `get_entity_details(entity_q_code, lang_code='en')`. -/
def get_entity_details (net : String → Option Json)
    (entity_q_code : String) (lang_code : String) :
    Except PyErr (Option EntityDetails) :=
  let query := entityDetailsQuery entity_q_code lang_code
  match run_sparql_query net query with
  | none => .ok none
  | some j =>
    if j.truthy then do
      let results ← j.getItem "results"
      let bindings ← results.getItem "bindings"
      if bindings.truthy then do
        let binding ← bindings.getIdx0
        let labelEntry ← binding.getD "label" (Json.obj [])
        let label ← labelEntry.getD "value" (Json.str "N/A")
        let descEntry ← binding.getD "description" (Json.obj [])
        let description ← descEntry.getD "value" (Json.str "No description available.")
        let artEntry ← binding.getD "article" (Json.obj [])
        let artVal ← artEntry.getD "value" (Json.str "")
        let artStr ← pyAsStr artVal
        .ok (some ⟨label, description, (pySplit '/' artStr).getLastD ""⟩)
      else .ok none
    else .ok none

/-- One element of the list `get_on_this_day_events` returns:
`{"label": ..., "year": ...}`. -/
structure OnThisDayEvent where
  label : Json
  year : Nat

/-- The body of the `for item in data['results']['bindings']:` loop of
`get_on_this_day_events`: items whose `date` value is falsy are skipped. -/
def onThisDayItem (item : Json) : Except PyErr (Option OnThisDayEvent) := do
  let dateEntry ← item.getD "date" (Json.obj [])
  let date_str ← dateEntry.getD "value" Json.null
  if date_str.truthy then do
    let labelEntry ← item.getD "eventLabel" (Json.obj [])
    let label ← labelEntry.getD "value" (Json.str "Event")
    let ds ← pyAsStr date_str
    let dt ← fromisoformat (pyStripChar 'Z' ds)
    .ok (some ⟨label, dt.year⟩)
  else .ok none

def onThisDayLoop : List Json → Except PyErr (List OnThisDayEvent)
  | [] => .ok []
  | item :: rest => do
    let e ← onThisDayItem item
    let es ← onThisDayLoop rest
    match e with
    | some ev => .ok (ev :: es)
    | none => .ok es

/-- Function `get_on_this_day_events(region_q_code, lang_code='en')`; the source reads
`datetime.datetime.now()`, passed here explicitly as `today`. -/
def get_on_this_day_events (net : String → Option Json) (today : PyDateTime)
    (region_q_code : String) (lang_code : String) :
    Except PyErr (List OnThisDayEvent) :=
  let month := today.month
  let day := today.day
  let query := onThisDayQuery region_q_code lang_code month day
  match run_sparql_query net query with
  | none => .ok []
  | some j =>
    if j.truthy then do
      let results ← j.getItem "results"
      let bindings ← results.getItem "bindings"
      if bindings.truthy then do
        let items ← bindings.asIter
        onThisDayLoop items
      else .ok []
    else .ok []

/-- One element of the list `get_timeline_events` returns:
`{"label": ..., "description": ..., "date": ...}`. -/
structure TimelineEvent where
  label : Json
  description : Json
  date : String

/-- The body of the timeline loop. Unlike `get_on_this_day_events` there is no
`if date_str:` guard: a missing `date` value reaches
`.replace('Z', '')` as `None` and raises `AttributeError`. -/
def timelineItem (item : Json) : Except PyErr TimelineEvent := do
  let labelEntry ← item.getD "eventLabel" (Json.obj [])
  let label ← labelEntry.getD "value" (Json.str "Event")
  let descEntry ← item.getD "eventDescription" (Json.obj [])
  let description ← descEntry.getD "value" (Json.str "No description.")
  let dateEntry ← item.getD "date" (Json.obj [])
  let dateVal ← dateEntry.getD "value" Json.null
  let ds ← pyAsStr dateVal
  let dt ← fromisoformat (pyStripChar 'Z' ds)
  .ok ⟨label, description, strftimeDMY dt⟩

def timelineLoop : List Json → Except PyErr (List TimelineEvent)
  | [] => .ok []
  | item :: rest => do
    let e ← timelineItem item
    let es ← timelineLoop rest
    .ok (e :: es)

/-- Function `get_timeline_events(region_q_code, lang_code='en')`. -/
def get_timeline_events (net : String → Option Json)
    (region_q_code : String) (lang_code : String) :
    Except PyErr (List TimelineEvent) :=
  let query := timelineQuery region_q_code lang_code
  match run_sparql_query net query with
  | none => .ok []
  | some j =>
    if j.truthy then do
      let results ← j.getItem "results"
      let bindings ← results.getItem "bindings"
      if bindings.truthy then do
        let items ← bindings.asIter
        timelineLoop items
      else .ok []
    else .ok []

/-! ### Encyclopedia client (`get_wiki_summary_and_image`)

The `wikipediaapi` page object is modelled by the attributes the source
reads: `exists()`, `summary`, `fullurl` (guarded by `hasattr`), `thumbnail`
and `sections`; the API itself is an explicit function from language and
title to a page. -/

structure WikiSection where
  images : List String

structure WikiPage where
  pageExists : Bool
  summary : String
  hasFullurl : Bool
  fullurl : String
  thumbnail : Option String
  sections : List WikiSection

structure WikiContent where
  summary : String
  image_url : Option String

/-- Python truthiness of the `image_url` / `page.thumbnail` values
(`None` and `''` are falsy). -/
def truthyStrOpt : Option String → Bool
  | none => false
  | some s => s != ""

/-- The trailing section scan of `get_wiki_summary_and_image`. The inner
`for img_title in section.images:` loop only `break`s when it finds a
`.jpg`/`.jpeg`/`.png` title — the source deliberately never assigns
`image_url` there — so per section the loop's only observable effect is
nothing, after which `if image_url: break` is checked. -/
def sectionScan (image_url : Option String) : List WikiSection → Option String
  | [] => image_url
  | sec :: rest =>
    let _ := sec.images.filter
      (fun img => pyEndsWith (pyLower img) ".jpg" || pyEndsWith (pyLower img) ".jpeg"
        || pyEndsWith (pyLower img) ".png")
    if truthyStrOpt image_url then image_url
    else sectionScan image_url rest

/-- Function `get_wiki_summary_and_image(page_title, lang_code='en')`. -/
def get_wiki_summary_and_image (wapi : String → String → WikiPage)
    (page_title : String) (lang_code : String) : WikiContent :=
  if page_title == "" then
    ⟨"No Wikipedia article found for this entry.", none⟩
  else
    let page := wapi lang_code page_title
    if !page.pageExists then
      ⟨"The Wikipedia article \x27" ++ page_title ++ "\x27 does not exist in this language.", none⟩
    else
      let words := pySplit ' ' page.summary
      let summary0 := pyJoin ' ' (words.take 100)
      let summary := if words.length > 100 then summary0 ++ "..." else summary0
      let image_url :=
        if page.hasFullurl && !(pyIn "action=view" page.fullurl) then
          if truthyStrOpt page.thumbnail then page.thumbnail else none
        else none
      let image_url2 :=
        if !(truthyStrOpt image_url) then sectionScan image_url page.sections
        else image_url
      ⟨summary, image_url2⟩

/-! ### The memoizing cache

Modelled from the spec: the `@st.cache_data(ttl=3600)` decorator applied to
each fetch function is Streamlit library code, not part of this repository;
the spec describes it as a transparent memoizing cache keyed on (function
identity, arguments) with a fixed one-hour expiry, read-through and
write-through, for a sequential single-process caller. -/

/-- A cache key: the decorated function's identity and its arguments. -/
structure CacheKey where
  funcId : String
  args : List String
deriving DecidableEq

structure CacheEntry (α : Type) where
  value : α
  insertedAt : Nat

/-- Modelled from the spec: one read-through/write-through cached call at
time `now` (seconds). Returns the result, the updated cache, and whether the
underlying function (a network call) was actually invoked. An entry is live
while less than `ttl` seconds old. -/
def cachedCall {α : Type} (ttl : Nat) (f : CacheKey → α) (now : Nat)
    (cache : List (CacheKey × CacheEntry α)) (key : CacheKey) :
    α × List (CacheKey × CacheEntry α) × Bool :=
  match cache.lookup key with
  | some e =>
    if now < e.insertedAt + ttl then (e.value, cache, false)
    else (f key, (key, ⟨f key, now⟩) :: cache, true)
  | none => (f key, (key, ⟨f key, now⟩) :: cache, true)

/-! ### Well-formedness of SPARQL responses

`https://query.wikidata.org/sparql?format=json` answers with
`{"head": ..., "results": {"bindings": [...]}}` where each binding maps
variable names to objects whose `"value"` field is a string. The predicates
below capture exactly that shape; the fetchers are total on it. -/

/-- One variable entry of a binding: an object whose `"value"`, if present,
is a string. -/
def entryWF : Json → Bool
  | .obj kvs =>
    match kvs.lookup "value" with
    | some v => v.isStr
    | none => true
  | _ => false

/-- A binding: an object all of whose entries are well-formed. -/
def bindingWF : Json → Bool
  | .obj kvs => kvs.all (fun kv => entryWF kv.2)
  | _ => false

/-- Extracts `data['results']['bindings']` when the response has the
documented shape (an object whose `results` field is an object whose
`bindings` field is a list). -/
def sparqlBindings? (j : Json) : Option (List Json) :=
  match j.getItem "results" with
  | .ok r =>
    match r.getItem "bindings" with
    | .ok (.arr items) => some items
    | _ => none
  | .error _ => none

/-- The string stored under key `k` of a well-formed binding, with the
default the source supplies to `.get('value', default)`. -/
def bindingValD (kvs : List (String × Json)) (k : String) (d : String) : Json :=
  match kvs.lookup k with
  | some (.obj kvs2) => (kvs2.lookup "value").getD (.str d)
  | some other => other
  | none => .str d

/-- The Python value reaching `.replace('Z', '')` for the `date` variable:
`item.get('date', {}).get('value')` on a binding `{..kvs..}`. The second
match arm is unreachable for well-formed bindings. -/
def dateValueOf (kvs : List (String × Json)) : Json :=
  match kvs.lookup "date" with
  | some (.obj kvs2) => (kvs2.lookup "value").getD .null
  | some other => other
  | none => .null

/-- The string the article URL of a well-formed binding reduces to before
`.split('/')[-1]` (the `.get('value', '')` default when absent). -/
def articleStrOf (kvs : List (String × Json)) : String :=
  match bindingValD kvs "article" "" with
  | .str s => s
  | _ => ""

/-- The parsed date of a timeline binding, when its `date` value is a string
that `fromisoformat` accepts after the `Z` strip. -/
def timelineDate? (b : Json) : Option PyDateTime :=
  match b with
  | .obj kvs =>
    match dateValueOf kvs with
    | .str ds =>
      match fromisoformat (pyStripChar 'Z' ds) with
      | .ok dt => some dt
      | .error _ => none
    | _ => none
  | _ => none

/-- A timeline response's bindings conform to the emitted query when every
binding is well-formed and carries a parseable date; returns those dates. -/
def timelineConform : List Json → Option (List PyDateTime)
  | [] => some []
  | b :: rest =>
    if bindingWF b then
      match timelineDate? b with
      | some dt =>
        match timelineConform rest with
        | some dts => some (dt :: dts)
        | none => none
      | none => none
    else none

/-- An "on this day" binding is safe for the loop when it is well-formed and
its date value is either falsy (the source skips it) or a parseable
timestamp; no month/day condition is imposed. -/
def onThisDayBindingSafe (b : Json) : Bool :=
  bindingWF b &&
  (match b with
   | .obj kvs =>
     match dateValueOf kvs with
     | .null => true
     | .str ds =>
       if ds == "" then true
       else
         match fromisoformat (pyStripChar 'Z' ds) with
         | .ok _ => true
         | .error _ => false
     | _ => false
   | _ => false)

/-- The parsed dates of the bindings the "on this day" loop keeps (those with
a truthy date value), provided the response conforms to the emitted query's
`FILTER(MONTH(?date) = m && DAY(?date) = d)`: every binding well-formed,
every kept date parseable with the given month and day. Returns `none` on any
non-conforming binding. -/
def onThisDayConformDates (month day : Nat) : List Json → Option (List PyDateTime)
  | [] => some []
  | .obj kvs :: rest =>
    if (kvs.all fun kv => entryWF kv.2) then
      match dateValueOf kvs with
      | .null => onThisDayConformDates month day rest
      | .str ds =>
        if ds == "" then onThisDayConformDates month day rest
        else
          match fromisoformat (pyStripChar 'Z' ds) with
          | .ok dt =>
            if dt.month == month && dt.day == day then
              (onThisDayConformDates month day rest).map (fun dts => dt :: dts)
            else none
          | .error _ => none
      | _ => none
    else none
  | _ :: _ => none

/-! ### Concrete responses used to evaluate the theorems -/

/-- A well-formed response with zero rows. -/
def emptySparqlResp : Json :=
  Json.obj [("head", Json.obj [("vars", Json.arr [])]),
            ("results", Json.obj [("bindings", Json.arr [])])]

/-- A truthy JSON response without the `results` key: `data['results']`
raises `KeyError` on it. -/
def noResultsResp : Json :=
  Json.obj [("error", Json.str "rate limited")]

/-- A shape-correct timeline response whose single binding has no `date`
variable: `item.get('date', {}).get('value')` yields `None` and
`.replace('Z', '')` raises `AttributeError`. -/
def missingDateResp : Json :=
  Json.obj [("results", Json.obj [("bindings", Json.arr
    [Json.obj [("eventLabel", Json.obj [("value", Json.str "Battle of Talikota")])]])])]

/-- The binding of `entityResp`: a label, a description and a sitelink
article. -/
def entityKvs : List (String × Json) :=
  [("label", Json.obj [("xml:lang", Json.str "en"), ("value", Json.str "Hampi")]),
   ("description", Json.obj [("xml:lang", Json.str "en"),
      ("value", Json.str "village in Karnataka, India")]),
   ("article", Json.obj [("type", Json.str "uri"),
      ("value", Json.str "https://en.wikipedia.org/wiki/Hampi")])]

/-- An entity-details response for a Q-code with a label, a description and a
sitelink article. -/
def entityResp : Json :=
  Json.obj [("results", Json.obj [("bindings", Json.arr [Json.obj entityKvs])])]

/-- The binding of `labelOnlyResp`: only a label. -/
def labelOnlyKvs : List (String × Json) :=
  [("label", Json.obj [("value", Json.str "Hampi")])]

/-- An entity-details response whose single binding has only a label: no
description and no article. -/
def labelOnlyResp : Json :=
  Json.obj [("results", Json.obj [("bindings", Json.arr [Json.obj labelOnlyKvs])])]

/-- A timeline response with two rows in ascending date order. -/
def timelineResp : Json :=
  Json.obj [("results", Json.obj [("bindings", Json.arr
    [Json.obj
      [("eventLabel", Json.obj [("value", Json.str "Foundation of Vijayanagara")]),
       ("date", Json.obj [("value", Json.str "1336-04-18T00:00:00Z")])],
     Json.obj
      [("eventLabel", Json.obj [("value", Json.str "Battle of Talikota")]),
       ("eventDescription", Json.obj [("value", Json.str "1565 battle")]),
       ("date", Json.obj [("value", Json.str "1565-01-23T00:00:00Z")])]])])]

/-- The bindings of `timelineResp`. -/
def timelineItems : List Json :=
  [Json.obj
    [("eventLabel", Json.obj [("value", Json.str "Foundation of Vijayanagara")]),
     ("date", Json.obj [("value", Json.str "1336-04-18T00:00:00Z")])],
   Json.obj
    [("eventLabel", Json.obj [("value", Json.str "Battle of Talikota")]),
     ("eventDescription", Json.obj [("value", Json.str "1565 battle")]),
     ("date", Json.obj [("value", Json.str "1565-01-23T00:00:00Z")])]]

/-- The parsed dates of `timelineResp`. -/
def timelineDates : List PyDateTime :=
  [⟨1336, 4, 18, 0, 0, 0⟩, ⟨1565, 1, 23, 0, 0, 0⟩]

/-- An "on this day" response with one row dated 23 January. -/
def onThisDayResp : Json :=
  Json.obj [("results", Json.obj [("bindings", Json.arr
    [Json.obj
      [("eventLabel", Json.obj [("value", Json.str "Battle of Talikota")]),
       ("date", Json.obj [("value", Json.str "1565-01-23T00:00:00Z")])]])])]

/-- The bindings of `onThisDayResp`. -/
def onThisDayItems : List Json :=
  [Json.obj
    [("eventLabel", Json.obj [("value", Json.str "Battle of Talikota")]),
     ("date", Json.obj [("value", Json.str "1565-01-23T00:00:00Z")])]]

/-- The parsed dates the "on this day" loop keeps from `onThisDayResp`. -/
def onThisDayDts : List PyDateTime := [⟨1565, 1, 23, 0, 0, 0⟩]

/-- A fixed "today" for evaluating `get_on_this_day_events`: 23 January 2026. -/
def sampleToday : PyDateTime := ⟨2026, 1, 23, 12, 0, 0⟩

/-- A sample cache key: the decorated function plus its arguments. -/
def sampleCacheKey : CacheKey := ⟨"run_sparql_query", ["q", "en"]⟩

/-- A Wikipedia API stub whose page has a two-word summary and a thumbnail. -/
def shortSummaryWiki : String → String → WikiPage :=
  fun _ _ => ⟨true, "Hampi ruins",
    true, "https://en.wikipedia.org/wiki/Hampi",
    some "https://upload.wikimedia.org/thumb/Hampi.jpg",
    [⟨["Hampi virupaksha temple.jpg"]⟩]⟩

/-! ### Evaluation lemmas -/

theorem splitChar_ne_nil (c : Char) (l : List Char) : splitChar c l ≠ [] := by
  induction l with
  | nil => simp [splitChar]
  | cons x xs ih =>
    simp only [splitChar]
    split
    · simp
    · cases h : splitChar c xs with
      | nil => exact absurd h ih
      | cons w ws => simp

theorem joinChar_splitChar (c : Char) (l : List Char) :
    joinChar c (splitChar c l) = l := by
  induction l with
  | nil => simp [splitChar, joinChar]
  | cons x xs ih =>
    simp only [splitChar]
    by_cases hxc : x = c
    · subst hxc
      simp only [if_pos rfl]
      cases h : splitChar x xs with
      | nil => exact absurd h (splitChar_ne_nil x xs)
      | cons w ws =>
        rw [h] at ih
        cases ws with
        | nil => simp only [joinChar] at ih ⊢; simp [ih]
        | cons w2 ws2 => simp only [joinChar] at ih ⊢; simp [ih]
    · rw [if_neg hxc]
      cases h : splitChar c xs with
      | nil => exact absurd h (splitChar_ne_nil c xs)
      | cons w ws =>
        rw [h] at ih
        cases ws with
        | nil => simp only [joinChar] at ih ⊢; simp [ih]
        | cons w2 ws2 => simp only [joinChar] at ih ⊢; simp [ih]

theorem Json.getD_obj (kvs : List (String × Json)) (k : String) (d : Json) :
    Json.getD (.obj kvs) k d = .ok ((kvs.lookup k).getD d) := rfl

theorem lookup_all {p : Json → Bool} {kvs : List (String × Json)} {k : String}
    {v : Json} (hall : (kvs.all fun kv => p kv.2) = true)
    (hl : kvs.lookup k = some v) : p v = true := by
  induction kvs with
  | nil => simp [List.lookup] at hl
  | cons kv rest ih =>
    simp only [List.all_cons, Bool.and_eq_true] at hall
    simp only [List.lookup] at hl
    split at hl
    · cases hl; exact hall.1
    · exact ih hall.2 hl

theorem truthy_of_getItem_ok {j : Json} {k : String} {v : Json}
    (h : j.getItem k = .ok v) : j.truthy = true := by
  cases j with
  | obj kvs =>
    cases kvs with
    | nil => simp [Json.getItem, List.lookup] at h
    | cons kv rest => simp [Json.truthy]
  | null => simp [Json.getItem] at h
  | bool b => simp [Json.getItem] at h
  | num n => simp [Json.getItem] at h
  | str s => simp [Json.getItem] at h
  | arr xs => simp [Json.getItem] at h

theorem respEval {j : Json} {items : List Json}
    (hb : sparqlBindings? j = some items) :
    j.truthy = true ∧
      ∃ r, j.getItem "results" = .ok r ∧ r.getItem "bindings" = .ok (.arr items) := by
  unfold sparqlBindings? at hb
  split at hb
  · rename_i r hres
    split at hb
    · rename_i items2 hbnd
      simp only [Option.some.injEq] at hb
      subst hb
      exact ⟨truthy_of_getItem_ok hres, r, hres, hbnd⟩
    · simp at hb
  · simp at hb

theorem getD_value_eq {kvs : List (String × Json)} {k d : String}
    (hwf : (kvs.all fun kv => entryWF kv.2) = true) :
    Json.getD ((kvs.lookup k).getD (Json.obj [])) "value" (Json.str d)
      = .ok (bindingValD kvs k d) := by
  cases hk : kvs.lookup k with
  | none => simp [Json.getD, bindingValD, hk, List.lookup]
  | some v =>
    have hv := lookup_all hwf hk
    cases v with
    | obj kvs2 => simp [Json.getD, bindingValD, hk]
    | null => simp [entryWF] at hv
    | bool b => simp [entryWF] at hv
    | num n => simp [entryWF] at hv
    | str s => simp [entryWF] at hv
    | arr xs => simp [entryWF] at hv

theorem getD_dateValue_eq {kvs : List (String × Json)}
    (hwf : (kvs.all fun kv => entryWF kv.2) = true) :
    Json.getD ((kvs.lookup "date").getD (Json.obj [])) "value" Json.null
      = .ok (dateValueOf kvs) := by
  cases hk : kvs.lookup "date" with
  | none => simp [Json.getD, dateValueOf, hk, List.lookup]
  | some v =>
    have hv := lookup_all hwf hk
    cases v with
    | obj kvs2 => simp [Json.getD, dateValueOf, hk]
    | null => simp [entryWF] at hv
    | bool b => simp [entryWF] at hv
    | num n => simp [entryWF] at hv
    | str s => simp [entryWF] at hv
    | arr xs => simp [entryWF] at hv

theorem entryWF_obj (kvs2 : List (String × Json)) :
    entryWF (.obj kvs2) = (match kvs2.lookup "value" with
      | some v => v.isStr
      | none => true) := rfl

theorem isStr_bindingValD {kvs : List (String × Json)} {k d : String}
    (hwf : (kvs.all fun kv => entryWF kv.2) = true) :
    (bindingValD kvs k d).isStr = true := by
  cases hk : kvs.lookup k with
  | none => simp [bindingValD, hk, Json.isStr]
  | some v =>
    have hv := lookup_all hwf hk
    cases v with
    | obj kvs2 =>
      cases hv2 : kvs2.lookup "value" with
      | none => simp [bindingValD, hk, hv2, Json.isStr]
      | some w =>
        have hw : w.isStr = true := by
          rw [entryWF_obj, hv2] at hv
          exact hv
        simp [bindingValD, hk, hv2, hw]
    | null => simp [entryWF] at hv
    | bool b => simp [entryWF] at hv
    | num n => simp [entryWF] at hv
    | str s => simp [entryWF] at hv
    | arr xs => simp [entryWF] at hv

theorem bindingValD_of_lookup_none {kvs : List (String × Json)} {k d : String}
    (hk : kvs.lookup k = none) : bindingValD kvs k d = .str d := by
  unfold bindingValD
  rw [hk]

theorem exbind_ok {β γ : Type} (a : β) (f : β → Except PyErr γ) :
    Bind.bind (Except.ok a) f = f a := rfl

theorem timelineItem_eval {kvs : List (String × Json)}
    (hwf : (kvs.all fun kv => entryWF kv.2) = true) {ds : String}
    (hds : dateValueOf kvs = .str ds) {dt : PyDateTime}
    (hdt : fromisoformat (pyStripChar 'Z' ds) = .ok dt) :
    timelineItem (.obj kvs) = .ok ⟨bindingValD kvs "eventLabel" "Event",
      bindingValD kvs "eventDescription" "No description.", strftimeDMY dt⟩ := by
  unfold timelineItem
  rw [Json.getD_obj, exbind_ok, getD_value_eq hwf, exbind_ok]
  rw [Json.getD_obj, exbind_ok, getD_value_eq hwf, exbind_ok]
  rw [Json.getD_obj, exbind_ok, getD_dateValue_eq hwf, exbind_ok, hds]
  simp only [pyAsStr]
  rw [exbind_ok, hdt, exbind_ok]

theorem onThisDayItem_skip {kvs : List (String × Json)}
    (hwf : (kvs.all fun kv => entryWF kv.2) = true)
    (hfal : (dateValueOf kvs).truthy = false) :
    onThisDayItem (.obj kvs) = .ok none := by
  unfold onThisDayItem
  rw [Json.getD_obj, exbind_ok, getD_dateValue_eq hwf, exbind_ok, hfal]
  simp

theorem onThisDayItem_take {kvs : List (String × Json)}
    (hwf : (kvs.all fun kv => entryWF kv.2) = true) {ds : String}
    (hds : dateValueOf kvs = .str ds) (hne : (ds == "") = false)
    {dt : PyDateTime} (hdt : fromisoformat (pyStripChar 'Z' ds) = .ok dt) :
    onThisDayItem (.obj kvs)
      = .ok (some ⟨bindingValD kvs "eventLabel" "Event", dt.year⟩) := by
  unfold onThisDayItem
  rw [Json.getD_obj, exbind_ok, getD_dateValue_eq hwf, exbind_ok, hds]
  have htr : (Json.str ds).truthy = true := by
    simp [Json.truthy, bne]
    intro h
    subst h
    simp at hne
  rw [htr]
  simp only [if_true]
  rw [Json.getD_obj, exbind_ok, getD_value_eq hwf, exbind_ok]
  simp only [pyAsStr]
  rw [exbind_ok, hdt, exbind_ok]

theorem timelineLoop_master : ∀ (items : List Json) (dates : List PyDateTime),
    timelineConform items = some dates →
    ∃ events, timelineLoop items = .ok events ∧
      events.length = items.length ∧
      events.map TimelineEvent.date = dates.map strftimeDMY ∧
      ∀ ev ∈ events, ev.label.isStr = true ∧ ev.description.isStr = true := by
  intro items
  induction items with
  | nil =>
    intro dates h
    unfold timelineConform at h
    simp only [Option.some.injEq] at h
    subst h
    exact ⟨[], rfl, rfl, rfl, by simp⟩
  | cons b rest ih =>
    intro dates h
    unfold timelineConform at h
    split at h
    · rename_i hwfb
      split at h
      · rename_i dt hdtb
        split at h
        · rename_i dts hc
          simp only [Option.some.injEq] at h
          subst h
          obtain ⟨evs, hloop, hlen, hmap, hstr⟩ := ih dts hc
          have hbobj : ∃ kvs, b = Json.obj kvs := by
            cases b <;> simp [bindingWF] at hwfb ⊢
          obtain ⟨kvs, hk⟩ := hbobj
          subst hk
          have hwf : (kvs.all fun kv => entryWF kv.2) = true := by
            simpa [bindingWF] using hwfb
          have hdate : ∃ ds, dateValueOf kvs = .str ds ∧
              fromisoformat (pyStripChar 'Z' ds) = .ok dt := by
            simp only [timelineDate?] at hdtb
            cases hdv : dateValueOf kvs with
            | str ds =>
              rw [hdv] at hdtb
              simp only [Option.some.injEq] at hdtb
              cases hfi : fromisoformat (pyStripChar 'Z' ds) with
              | ok dt2 =>
                rw [hfi] at hdtb
                simp at hdtb
                subst hdtb
                exact ⟨ds, rfl, hfi⟩
              | error e => rw [hfi] at hdtb; simp at hdtb
            | null => rw [hdv] at hdtb; simp at hdtb
            | bool b2 => rw [hdv] at hdtb; simp at hdtb
            | num n => rw [hdv] at hdtb; simp at hdtb
            | arr xs => rw [hdv] at hdtb; simp at hdtb
            | obj kvs2 => rw [hdv] at hdtb; simp at hdtb
          obtain ⟨ds, hds, hdt⟩ := hdate
          refine ⟨⟨bindingValD kvs "eventLabel" "Event",
            bindingValD kvs "eventDescription" "No description.", strftimeDMY dt⟩ :: evs,
            ?_, by simp [hlen], by simp [hmap], ?_⟩
          · unfold timelineLoop
            rw [timelineItem_eval hwf hds hdt, exbind_ok, hloop, exbind_ok]
          · intro ev hev
            rcases List.mem_cons.mp hev with hev | hev
            · subst hev
              exact ⟨isStr_bindingValD hwf, isStr_bindingValD hwf⟩
            · exact hstr ev hev
        · simp at h
      · simp at h
    · simp at h

theorem onThisDayLoop_safe : ∀ (items : List Json),
    items.all onThisDayBindingSafe = true →
    ∃ events, onThisDayLoop items = .ok events := by
  intro items
  induction items with
  | nil => exact fun _ => ⟨[], rfl⟩
  | cons b rest ih =>
    intro hall
    simp only [List.all_cons, Bool.and_eq_true] at hall
    obtain ⟨hb, hrest⟩ := hall
    obtain ⟨evs, hloop⟩ := ih hrest
    simp only [onThisDayBindingSafe, Bool.and_eq_true] at hb
    obtain ⟨hwfb, hshape⟩ := hb
    have hbobj : ∃ kvs, b = Json.obj kvs := by
      cases b <;> simp [bindingWF] at hwfb ⊢
    obtain ⟨kvs, hk⟩ := hbobj
    subst hk
    have hwf : (kvs.all fun kv => entryWF kv.2) = true := by
      simpa [bindingWF] using hwfb
    simp only at hshape
    cases hdv : dateValueOf kvs with
    | null =>
      have hskip : onThisDayItem (.obj kvs) = .ok none :=
        onThisDayItem_skip hwf (by rw [hdv]; rfl)
      refine ⟨evs, ?_⟩
      unfold onThisDayLoop
      rw [hskip, exbind_ok, hloop, exbind_ok]
    | str ds =>
      rw [hdv] at hshape
      by_cases hemp : ds = ""
      · subst hemp
        have hskip : onThisDayItem (.obj kvs) = .ok none :=
          onThisDayItem_skip hwf (by rw [hdv]; rfl)
        refine ⟨evs, ?_⟩
        unfold onThisDayLoop
        rw [hskip, exbind_ok, hloop, exbind_ok]
      · have hne : (ds == "") = false := by
          simp [hemp]
        simp only [hne, Bool.false_eq_true, if_false] at hshape
        cases hfi : fromisoformat (pyStripChar 'Z' ds) with
        | ok dt =>
          have htake := onThisDayItem_take hwf hdv hne hfi
          refine ⟨⟨bindingValD kvs "eventLabel" "Event", dt.year⟩ :: evs, ?_⟩
          unfold onThisDayLoop
          rw [htake, exbind_ok, hloop, exbind_ok]
        | error e => rw [hfi] at hshape; simp at hshape
    | bool b2 => rw [hdv] at hshape; simp at hshape
    | num n => rw [hdv] at hshape; simp at hshape
    | arr xs => rw [hdv] at hshape; simp at hshape
    | obj kvs2 => rw [hdv] at hshape; simp at hshape

theorem onThisDayLoop_linked (month day : Nat) :
    ∀ (items : List Json) (dts : List PyDateTime),
    onThisDayConformDates month day items = some dts →
    ∃ events, onThisDayLoop items = .ok events ∧
      events.length ≤ items.length ∧
      events.map OnThisDayEvent.year = dts.map PyDateTime.year ∧
      ∀ dt ∈ dts, dt.month = month ∧ dt.day = day := by
  intro items
  induction items with
  | nil =>
    intro dts h
    simp only [onThisDayConformDates, Option.some.injEq] at h
    subst h
    exact ⟨[], rfl, by simp, rfl, by simp⟩
  | cons b rest ih =>
    intro dts h
    cases b with
    | obj kvs =>
      simp only [onThisDayConformDates] at h
      by_cases hwf : (kvs.all fun kv => entryWF kv.2) = true
      · rw [if_pos hwf] at h
        cases hdv : dateValueOf kvs with
        | null =>
          rw [hdv] at h
          simp only [] at h
          obtain ⟨evs, hloop, hlen, hmap, hall⟩ := ih dts h
          have hskip : onThisDayItem (.obj kvs) = .ok none :=
            onThisDayItem_skip hwf (by rw [hdv]; rfl)
          refine ⟨evs, ?_, by simp; omega, hmap, hall⟩
          unfold onThisDayLoop
          rw [hskip, exbind_ok, hloop, exbind_ok]
        | str ds =>
          rw [hdv] at h
          simp only [] at h
          by_cases hemp : ds = ""
          · subst hemp
            rw [if_pos (beq_self_eq_true "")] at h
            obtain ⟨evs, hloop, hlen, hmap, hall⟩ := ih dts h
            have hskip : onThisDayItem (.obj kvs) = .ok none :=
              onThisDayItem_skip hwf (by rw [hdv]; rfl)
            refine ⟨evs, ?_, by simp; omega, hmap, hall⟩
            unfold onThisDayLoop
            rw [hskip, exbind_ok, hloop, exbind_ok]
          · have hne : (ds == "") = false := by
              simp [hemp]
            rw [if_neg (by simp [hemp])] at h
            cases hfi : fromisoformat (pyStripChar 'Z' ds) with
            | ok dt =>
              rw [hfi] at h
              simp only [] at h
              by_cases hmd : (dt.month == month && dt.day == day) = true
              · rw [if_pos hmd] at h
                cases hc : onThisDayConformDates month day rest with
                | none => rw [hc] at h; simp at h
                | some dts2 =>
                  rw [hc] at h
                  simp at h
                  subst h
                  obtain ⟨evs, hloop, hlen, hmap, hall⟩ := ih dts2 hc
                  simp only [Bool.and_eq_true, beq_iff_eq] at hmd
                  have htake := onThisDayItem_take hwf hdv hne hfi
                  refine ⟨⟨bindingValD kvs "eventLabel" "Event", dt.year⟩ :: evs,
                    ?_, by simp; omega, by simp [hmap], ?_⟩
                  · unfold onThisDayLoop
                    rw [htake, exbind_ok, hloop, exbind_ok]
                  · intro d hd
                    rcases List.mem_cons.mp hd with hd | hd
                    · subst hd
                      exact ⟨hmd.1, hmd.2⟩
                    · exact hall d hd
              · rw [if_neg hmd] at h
                simp at h
            | error e => rw [hfi] at h; simp at h
        | bool b2 => rw [hdv] at h; simp at h
        | num n => rw [hdv] at h; simp at h
        | arr xs => rw [hdv] at h; simp at h
        | obj kvs2 => rw [hdv] at h; simp at h
      · rw [if_neg hwf] at h
        simp at h
    | null => simp [onThisDayConformDates] at h
    | bool b2 => simp [onThisDayConformDates] at h
    | num n => simp [onThisDayConformDates] at h
    | str s => simp [onThisDayConformDates] at h
    | arr xs => simp [onThisDayConformDates] at h

theorem get_entity_details_offline {net : String → Option Json} {e l : String}
    (hnet : net (entityDetailsQuery e l) = none) :
    get_entity_details net e l = .ok none := by
  simp only [get_entity_details, run_sparql_query]
  rw [hnet]

theorem get_entity_details_noRows {net : String → Option Json} {e l : String}
    {j : Json} (hnet : net (entityDetailsQuery e l) = some j)
    (hb : sparqlBindings? j = some []) :
    get_entity_details net e l = .ok none := by
  obtain ⟨htr, r0, hres, hbnd⟩ := respEval hb
  simp only [get_entity_details, run_sparql_query]
  rw [hnet]
  simp only [htr, if_true, hres, exbind_ok, hbnd]
  rfl

theorem get_entity_details_run {net : String → Option Json} {e l : String}
    {j : Json} (hnet : net (entityDetailsQuery e l) = some j)
    {kvs : List (String × Json)} {tail : List Json}
    (hb : sparqlBindings? j = some (Json.obj kvs :: tail))
    (hwf : (kvs.all fun kv => entryWF kv.2) = true) :
    get_entity_details net e l = .ok (some ⟨bindingValD kvs "label" "N/A",
      bindingValD kvs "description" "No description available.",
      (pySplit '/' (articleStrOf kvs)).getLastD ""⟩) := by
  obtain ⟨htr, r0, hres, hbnd⟩ := respEval hb
  have hart : ∃ s, bindingValD kvs "article" "" = .str s := by
    have hstr := isStr_bindingValD (k := "article") (d := "") hwf
    cases hv : bindingValD kvs "article" "" with
    | str s => exact ⟨s, rfl⟩
    | null => rw [hv] at hstr; simp [Json.isStr] at hstr
    | bool b => rw [hv] at hstr; simp [Json.isStr] at hstr
    | num n => rw [hv] at hstr; simp [Json.isStr] at hstr
    | arr xs => rw [hv] at hstr; simp [Json.isStr] at hstr
    | obj o => rw [hv] at hstr; simp [Json.isStr] at hstr
  obtain ⟨s, hs⟩ := hart
  simp only [get_entity_details, run_sparql_query]
  rw [hnet]
  simp only [htr, if_true, hres, exbind_ok, hbnd]
  simp only [Json.truthy, List.isEmpty_cons, Bool.not_false, if_true]
  simp only [Json.getIdx0, exbind_ok]
  rw [Json.getD_obj, exbind_ok, getD_value_eq hwf, exbind_ok]
  rw [Json.getD_obj, exbind_ok, getD_value_eq hwf, exbind_ok]
  rw [Json.getD_obj, exbind_ok, getD_value_eq hwf, exbind_ok, hs]
  simp only [pyAsStr, exbind_ok]
  unfold articleStrOf
  rw [hs]

theorem get_on_this_day_events_offline {net : String → Option Json}
    {today : PyDateTime} {r l : String}
    (hnet : net (onThisDayQuery r l today.month today.day) = none) :
    get_on_this_day_events net today r l = .ok [] := by
  simp only [get_on_this_day_events, run_sparql_query]
  rw [hnet]

theorem get_on_this_day_events_noRows {net : String → Option Json}
    {today : PyDateTime} {r l : String} {j : Json}
    (hnet : net (onThisDayQuery r l today.month today.day) = some j)
    (hb : sparqlBindings? j = some []) :
    get_on_this_day_events net today r l = .ok [] := by
  obtain ⟨htr, r0, hres, hbnd⟩ := respEval hb
  simp only [get_on_this_day_events, run_sparql_query]
  rw [hnet]
  simp only [htr, if_true, hres, exbind_ok, hbnd]
  rfl

theorem get_on_this_day_events_safe {net : String → Option Json}
    {today : PyDateTime} {r l : String} {j : Json}
    (hnet : net (onThisDayQuery r l today.month today.day) = some j)
    {items : List Json} (hb : sparqlBindings? j = some items)
    (hall : items.all onThisDayBindingSafe = true) :
    ∃ events, get_on_this_day_events net today r l = .ok events := by
  obtain ⟨htr, r0, hres, hbnd⟩ := respEval hb
  obtain ⟨events, hloop⟩ := onThisDayLoop_safe items hall
  refine ⟨events, ?_⟩
  simp only [get_on_this_day_events, run_sparql_query]
  rw [hnet]
  simp only [htr, if_true, hres, exbind_ok, hbnd]
  cases items with
  | nil =>
    have hev : events = [] := by
      have h0 : (Except.ok [] : Except PyErr (List OnThisDayEvent)) = .ok events := by
        rw [← hloop]; rfl
      simpa using h0.symm
    subst hev
    simp [Json.truthy]
  | cons b tl =>
    simp only [Json.truthy, List.isEmpty_cons, Bool.not_false, if_true,
      Json.asIter, exbind_ok]
    exact hloop

theorem get_on_this_day_events_linked {net : String → Option Json}
    {today : PyDateTime} {r l : String} {j : Json}
    (hnet : net (onThisDayQuery r l today.month today.day) = some j)
    {items : List Json} (hb : sparqlBindings? j = some items)
    {dts : List PyDateTime}
    (hdts : onThisDayConformDates today.month today.day items = some dts) :
    ∃ events, get_on_this_day_events net today r l = .ok events ∧
      events.length ≤ items.length ∧
      events.map OnThisDayEvent.year = dts.map PyDateTime.year ∧
      ∀ dt ∈ dts, dt.month = today.month ∧ dt.day = today.day := by
  obtain ⟨htr, r0, hres, hbnd⟩ := respEval hb
  obtain ⟨events, hloop, hlen, hmap, hall⟩ :=
    onThisDayLoop_linked today.month today.day items dts hdts
  refine ⟨events, ?_, hlen, hmap, hall⟩
  simp only [get_on_this_day_events, run_sparql_query]
  rw [hnet]
  simp only [htr, if_true, hres, exbind_ok, hbnd]
  cases items with
  | nil =>
    have hev : events = [] := by
      have h0 : (Except.ok [] : Except PyErr (List OnThisDayEvent)) = .ok events := by
        rw [← hloop]; rfl
      simpa using h0.symm
    subst hev
    simp [Json.truthy]
  | cons b tl =>
    simp only [Json.truthy, List.isEmpty_cons, Bool.not_false, if_true,
      Json.asIter, exbind_ok]
    exact hloop

theorem get_timeline_events_offline {net : String → Option Json} {r l : String}
    (hnet : net (timelineQuery r l) = none) :
    get_timeline_events net r l = .ok [] := by
  simp only [get_timeline_events, run_sparql_query]
  rw [hnet]

theorem get_timeline_events_noRows {net : String → Option Json} {r l : String}
    {j : Json} (hnet : net (timelineQuery r l) = some j)
    (hb : sparqlBindings? j = some []) :
    get_timeline_events net r l = .ok [] := by
  obtain ⟨htr, r0, hres, hbnd⟩ := respEval hb
  simp only [get_timeline_events, run_sparql_query]
  rw [hnet]
  simp only [htr, if_true, hres, exbind_ok, hbnd]
  rfl

theorem get_timeline_events_run {net : String → Option Json} {r l : String}
    {j : Json} (hnet : net (timelineQuery r l) = some j)
    {items : List Json} (hb : sparqlBindings? j = some items)
    {dates : List PyDateTime} (hc : timelineConform items = some dates) :
    ∃ events, get_timeline_events net r l = .ok events ∧
      events.length = items.length ∧
      events.map TimelineEvent.date = dates.map strftimeDMY ∧
      ∀ ev ∈ events, ev.label.isStr = true ∧ ev.description.isStr = true := by
  obtain ⟨htr, r0, hres, hbnd⟩ := respEval hb
  obtain ⟨events, hloop, hlen, hmap, hstr⟩ := timelineLoop_master items dates hc
  refine ⟨events, ?_, hlen, hmap, hstr⟩
  simp only [get_timeline_events, run_sparql_query]
  rw [hnet]
  simp only [htr, if_true, hres, exbind_ok, hbnd]
  cases items with
  | nil =>
    have hev : events = [] := by
      have h0 : (Except.ok [] : Except PyErr (List TimelineEvent)) = .ok events := by
        rw [← hloop]; rfl
      simpa using h0.symm
    subst hev
    simp [Json.truthy]
  | cons b tl =>
    simp only [Json.truthy, List.isEmpty_cons, Bool.not_false, if_true,
      Json.asIter, exbind_ok]
    exact hloop

theorem mk_toList (s : String) : String.mk s.toList = s := by
  cases s
  rfl

theorem pyJoin_pySplit (c : Char) (s : String) : pyJoin c (pySplit c s) = s := by
  unfold pyJoin pySplit
  rw [List.map_map]
  have hid : (String.toList ∘ String.mk) = id := by
    funext l
    rfl
  rw [hid, List.map_id, joinChar_splitChar, mk_toList]

theorem dtLE_imp_dateLE {a b : PyDateTime} (h : dtLE a b = true) :
    dateLE a b = true := by
  unfold dtLE at h
  unfold dateLE
  split_ifs at h ⊢ <;> simp_all [bne, decide_eq_true_eq]
  all_goals omega

theorem sectionScan_none : ∀ secs, sectionScan none secs = none := by
  intro secs
  induction secs with
  | nil => rfl
  | cons s rest ih => simp [sectionScan, truthyStrOpt, ih]

theorem timelineDate?_destruct {kvs : List (String × Json)} {dt : PyDateTime}
    (hdt : timelineDate? (Json.obj kvs) = some dt) :
    ∃ ds, dateValueOf kvs = .str ds ∧
      fromisoformat (pyStripChar 'Z' ds) = .ok dt := by
  simp only [timelineDate?] at hdt
  cases hdv : dateValueOf kvs with
  | str ds =>
    rw [hdv] at hdt
    simp only [Option.some.injEq] at hdt
    cases hfi : fromisoformat (pyStripChar 'Z' ds) with
    | ok dt2 =>
      rw [hfi] at hdt
      simp at hdt
      subst hdt
      exact ⟨ds, rfl, hfi⟩
    | error e => rw [hfi] at hdt; simp at hdt
  | null => rw [hdv] at hdt; simp at hdt
  | bool b2 => rw [hdv] at hdt; simp at hdt
  | num n => rw [hdv] at hdt; simp at hdt
  | arr xs => rw [hdv] at hdt; simp at hdt
  | obj kvs2 => rw [hdv] at hdt; simp at hdt

/-! ### The claims -/

/-- C1: for every configured region identifier and language code,
`get_timeline_events` returns a sequence whose dates are non-decreasing with
at most 25 events — given a response that satisfies the semantics of the
emitted query (`ORDER BY ?date`, `LIMIT 25`): well-formed bindings whose
parsed dates are sorted and number at most 25. The code itself neither sorts
nor truncates; the returned `date` strings are the `%d %B %Y` renderings of
the response's sorted dates. -/
theorem C1_timeline_sorted_and_capped
    (net : String → Option Json) (region lang : String)
    (hregion : region ∈ REGIONS.map (fun p => p.2.q_code))
    (hlang : lang ∈ LANGUAGES.map (fun p => p.2))
    {j : Json} (hnet : net (timelineQuery region lang) = some j)
    {items : List Json} (hb : sparqlBindings? j = some items)
    {dates : List PyDateTime} (hc : timelineConform items = some dates)
    (hsorted : List.Chain' (fun a b => dtLE a b = true) dates)
    (hcap : items.length ≤ 25) :
    ∃ events, get_timeline_events net region lang = .ok events ∧
      events.length ≤ 25 ∧
      events.map TimelineEvent.date = dates.map strftimeDMY ∧
      List.Chain' (fun a b => dateLE a b = true) dates := by
  obtain ⟨events, hrun, hlen, hmap, _⟩ := get_timeline_events_run hnet hb hc
  exact ⟨events, hrun, by omega,
    hmap, hsorted.imp (fun a b h => dtLE_imp_dateLE h)⟩

/-- C1 witness: evaluation at a concrete two-row sorted response for
Karnataka in English. -/
theorem C1_witness : ∃ events,
    get_timeline_events (fun _ => some timelineResp) "Q1185" "en" = .ok events ∧
      events.length ≤ 25 ∧
      events.map TimelineEvent.date = timelineDates.map strftimeDMY ∧
      List.Chain' (fun a b => dateLE a b = true) timelineDates :=
  C1_timeline_sorted_and_capped (fun _ => some timelineResp) "Q1185" "en"
    (by decide) (by decide) rfl rfl rfl
    (by simp only [timelineDates, List.chain'_cons, List.chain'_singleton, and_true]
        decide)
    (by decide)

/-- C2 counterexample: a data-access operation can propagate a failure. On a
shape-correct response whose binding lacks a `date` value,
`get_timeline_events` evaluates `item.get('date', {}).get('value')` to `None`
and `.replace('Z', '')` raises `AttributeError`, so not every JSON response
the endpoint may return leads to a safe default. -/
theorem C2_counterexample :
    get_timeline_events (fun _ => some missingDateResp) "Q1185" "en"
      = .error PyErr.attributeError := rfl

/-- C2 (amended): on transport failure and on any response of the documented
SPARQL result shape — `results.bindings` a list of well-formed bindings
whose date values are parseable (for the timeline) or falsy-or-parseable
(for "on this day") — the three knowledge-graph operations return safe
defaults and never propagate an exception, and the encyclopedia operation is
total, with the fixed placeholder for an empty title; outside that shape an
exception can propagate to the caller. -/
theorem C2_amended_safe_defaults :
    (∀ (net : String → Option Json) (e l : String),
       net (entityDetailsQuery e l) = none →
       get_entity_details net e l = Except.ok none) ∧
    (∀ (net : String → Option Json) (today : PyDateTime) (r l : String),
       net (onThisDayQuery r l today.month today.day) = none →
       get_on_this_day_events net today r l = Except.ok []) ∧
    (∀ (net : String → Option Json) (r l : String),
       net (timelineQuery r l) = none →
       get_timeline_events net r l = Except.ok []) ∧
    (∀ (net : String → Option Json) (e l : String) (j : Json),
       net (entityDetailsQuery e l) = some j → sparqlBindings? j = some [] →
       get_entity_details net e l = Except.ok none) ∧
    (∀ (net : String → Option Json) (e l : String) (j : Json)
       (kvs : List (String × Json)) (tail : List Json),
       net (entityDetailsQuery e l) = some j →
       sparqlBindings? j = some (Json.obj kvs :: tail) →
       (kvs.all fun kv => entryWF kv.2) = true →
       ∃ d, get_entity_details net e l = Except.ok d) ∧
    (∀ (net : String → Option Json) (today : PyDateTime) (r l : String)
       (j : Json) (items : List Json),
       net (onThisDayQuery r l today.month today.day) = some j →
       sparqlBindings? j = some items →
       items.all onThisDayBindingSafe = true →
       ∃ evs, get_on_this_day_events net today r l = Except.ok evs) ∧
    (∀ (net : String → Option Json) (r l : String) (j : Json)
       (items : List Json) (dates : List PyDateTime),
       net (timelineQuery r l) = some j → sparqlBindings? j = some items →
       timelineConform items = some dates →
       ∃ evs, get_timeline_events net r l = Except.ok evs) ∧
    (∀ (wapi : String → String → WikiPage) (l : String),
       get_wiki_summary_and_image wapi "" l =
         ⟨"No Wikipedia article found for this entry.", none⟩) := by
  refine ⟨?_, ?_, ?_, ?_, ?_, ?_, ?_, ?_⟩
  · intro net e l h
    exact get_entity_details_offline h
  · intro net today r l h
    exact get_on_this_day_events_offline h
  · intro net r l h
    exact get_timeline_events_offline h
  · intro net e l j h hb
    exact get_entity_details_noRows h hb
  · intro net e l j kvs tail h hb hwf
    exact ⟨_, get_entity_details_run h hb hwf⟩
  · intro net today r l j items h hb hall
    exact get_on_this_day_events_safe h hb hall
  · intro net r l j items dates h hb hc
    obtain ⟨evs, hrun, _, _, _⟩ := get_timeline_events_run h hb hc
    exact ⟨evs, hrun⟩
  · intro wapi l
    rfl

/-- C2 witness: each amended conjunct evaluated at a concrete input. -/
theorem C2_witness :
    get_entity_details (fun _ => none) "Q3349636" "en" = Except.ok none ∧
    get_on_this_day_events (fun _ => none) sampleToday "Q1185" "en" = Except.ok [] ∧
    get_timeline_events (fun _ => none) "Q1185" "en" = Except.ok [] ∧
    get_entity_details (fun _ => some emptySparqlResp) "Q3349636" "en" = Except.ok none ∧
    (∃ d, get_entity_details (fun _ => some entityResp) "Q3349636" "en" = Except.ok d) ∧
    (∃ evs, get_on_this_day_events (fun _ => some onThisDayResp) sampleToday "Q1185" "en"
      = Except.ok evs) ∧
    (∃ evs, get_timeline_events (fun _ => some timelineResp) "Q1185" "en" = Except.ok evs) ∧
    get_wiki_summary_and_image shortSummaryWiki "" "en" =
      ⟨"No Wikipedia article found for this entry.", none⟩ :=
  ⟨C2_amended_safe_defaults.1 _ "Q3349636" "en" rfl,
   C2_amended_safe_defaults.2.1 _ sampleToday "Q1185" "en" rfl,
   C2_amended_safe_defaults.2.2.1 _ "Q1185" "en" rfl,
   C2_amended_safe_defaults.2.2.2.1 _ "Q3349636" "en" emptySparqlResp rfl rfl,
   C2_amended_safe_defaults.2.2.2.2.1 _ "Q3349636" "en" entityResp entityKvs [] rfl rfl
     (by decide),
   C2_amended_safe_defaults.2.2.2.2.2.1 _ sampleToday "Q1185" "en" onThisDayResp
     onThisDayItems rfl rfl (by decide),
   C2_amended_safe_defaults.2.2.2.2.2.2.1 _ "Q1185" "en" timelineResp timelineItems
     timelineDates rfl rfl rfl,
   C2_amended_safe_defaults.2.2.2.2.2.2.2 shortSummaryWiki "en"⟩

/-- C3: `get_entity_details` returns `None` both when the transport fails and
when the query yields no row, never a partially populated record. -/
theorem C3_entity_details_absent (net : String → Option Json) (e l : String) :
    (net (entityDetailsQuery e l) = none →
      get_entity_details net e l = Except.ok none) ∧
    (∀ j, net (entityDetailsQuery e l) = some j → sparqlBindings? j = some [] →
      get_entity_details net e l = Except.ok none) :=
  ⟨fun h => get_entity_details_offline h,
   fun _ h hb => get_entity_details_noRows h hb⟩

/-- C3 witness: transport failure and a zero-row response both give `None`. -/
theorem C3_witness :
    get_entity_details (fun _ => none) "Q43416" "hi" = Except.ok none ∧
    get_entity_details (fun _ => some emptySparqlResp) "Q43416" "hi" = Except.ok none :=
  ⟨(C3_entity_details_absent (fun _ => none) "Q43416" "hi").1 rfl,
   (C3_entity_details_absent (fun _ => some emptySparqlResp) "Q43416" "hi").2
     emptySparqlResp rfl rfl⟩

/-- C4: `get_on_this_day_events` is keyed on a region identifier, a language
code and the current month and day (the explicit `today` of
`datetime.datetime.now()`), and returns at most 5 `(label, year)` pairs for a
response honouring the emitted query's `LIMIT 5` and month/day filter. The
years of the returned events are exactly the years of the response's kept
parsed dates (`onThisDayConformDates`), each of which matches today's month
and day regardless of year; region scoping and the month/day filter are
interpolated into the query the function sends, which the network hypothesis
is keyed on. -/
theorem C4_on_this_day (net : String → Option Json) (today : PyDateTime)
    (region lang : String) {j : Json}
    (hnet : net (onThisDayQuery region lang today.month today.day) = some j)
    {items : List Json} (hb : sparqlBindings? j = some items)
    {dts : List PyDateTime}
    (hdts : onThisDayConformDates today.month today.day items = some dts)
    (hcap : items.length ≤ 5) :
    ∃ events, get_on_this_day_events net today region lang = .ok events ∧
      events.length ≤ 5 ∧
      events.map OnThisDayEvent.year = dts.map PyDateTime.year ∧
      ∀ dt ∈ dts, dt.month = today.month ∧ dt.day = today.day := by
  obtain ⟨events, hrun, hlen, hmap, hall⟩ := get_on_this_day_events_linked hnet hb hdts
  exact ⟨events, hrun, by omega, hmap, hall⟩

/-- C4 witness: one event dated 23 January 1565, with `today` 23 January
2026; the returned year list is exactly `[1565]`. -/
theorem C4_witness : ∃ events,
    get_on_this_day_events (fun _ => some onThisDayResp) sampleToday "Q1185" "en"
      = .ok events ∧
      events.length ≤ 5 ∧
      events.map OnThisDayEvent.year = onThisDayDts.map PyDateTime.year ∧
      ∀ dt ∈ onThisDayDts, dt.month = sampleToday.month ∧ dt.day = sampleToday.day :=
  C4_on_this_day (fun _ => some onThisDayResp) sampleToday "Q1185" "en" rfl rfl rfl
    (by decide)

/-- C5: for an existing page, `get_wiki_summary_and_image` truncates a summary
of more than 100 words (Python `split(' ')` pieces) to its first 100 with
`'...'` appended, and returns a summary at or under the cap verbatim with no
marker. -/
theorem C5_summary_truncation (wapi : String → String → WikiPage)
    (page_title lang_code : String) (ht : page_title ≠ "")
    (hex : (wapi lang_code page_title).pageExists = true) :
    ((pySplit ' ' (wapi lang_code page_title).summary).length > 100 →
      (get_wiki_summary_and_image wapi page_title lang_code).summary
        = pyJoin ' ' ((pySplit ' ' (wapi lang_code page_title).summary).take 100)
          ++ "...") ∧
    ((pySplit ' ' (wapi lang_code page_title).summary).length ≤ 100 →
      (get_wiki_summary_and_image wapi page_title lang_code).summary
        = (wapi lang_code page_title).summary) := by
  have h1 : (page_title == "") = false := by simp [ht]
  constructor
  · intro hgt
    simp [get_wiki_summary_and_image, h1, hex, hgt]
  · intro hle
    have hngt : ¬ (pySplit ' ' (wapi lang_code page_title).summary).length > 100 := by
      omega
    simp [get_wiki_summary_and_image, h1, hex, hngt]
    rw [List.take_of_length_le hle, pyJoin_pySplit]

/-- C5 witness: a two-word summary is returned verbatim. -/
theorem C5_witness :
    (get_wiki_summary_and_image shortSummaryWiki "Hampi" "en").summary
      = "Hampi ruins" :=
  (C5_summary_truncation shortSummaryWiki "Hampi" "en" (by decide) rfl).2 (by decide)

/-- C6: when the endpoint yields no matching rows — for any region identifier,
configured or not — `get_on_this_day_events` and `get_timeline_events` return
the empty sequence, never an error or an exception. -/
theorem C6_empty_sequences (net : String → Option Json) (today : PyDateTime)
    (region lang : String) :
    (∀ j, net (onThisDayQuery region lang today.month today.day) = some j →
      sparqlBindings? j = some [] →
      get_on_this_day_events net today region lang = Except.ok []) ∧
    (∀ j, net (timelineQuery region lang) = some j →
      sparqlBindings? j = some [] →
      get_timeline_events net region lang = Except.ok []) :=
  ⟨fun _ h hb => get_on_this_day_events_noRows h hb,
   fun _ h hb => get_timeline_events_noRows h hb⟩

/-- C6 witness: a zero-row response for the unconfigured region identifier
`Q999999` yields empty sequences from both fetchers. -/
theorem C6_witness :
    get_on_this_day_events (fun _ => some emptySparqlResp) sampleToday "Q999999" "en"
      = Except.ok [] ∧
    get_timeline_events (fun _ => some emptySparqlResp) "Q999999" "en"
      = Except.ok [] ∧
    "Q999999" ∉ REGIONS.map (fun p => p.2.q_code) :=
  ⟨(C6_empty_sequences (fun _ => some emptySparqlResp) sampleToday "Q999999" "en").1
     emptySparqlResp rfl rfl,
   (C6_empty_sequences (fun _ => some emptySparqlResp) sampleToday "Q999999" "en").2
     emptySparqlResp rfl rfl,
   by decide⟩

/-- C7: in a record produced by `get_entity_details` from a well-formed
response whose optional `article` binding carries a sitelink URL (a string
with a non-empty final `/`-segment), `page_title` is non-empty exactly when
the query returned an associated article binding. -/
theorem C7_page_title_iff (net : String → Option Json) (e l : String)
    {j : Json} (hnet : net (entityDetailsQuery e l) = some j)
    {kvs : List (String × Json)} {tail : List Json}
    (hb : sparqlBindings? j = some (Json.obj kvs :: tail))
    (hwf : (kvs.all fun kv => entryWF kv.2) = true)
    (hart : ∀ v, kvs.lookup "article" = some v →
      ∃ kvs2 u, v = Json.obj kvs2 ∧ kvs2.lookup "value" = some (Json.str u) ∧
        (pySplit '/' u).getLastD "" ≠ "") :
    ∃ det, get_entity_details net e l = Except.ok (some det) ∧
      (det.page_title ≠ "" ↔ (kvs.lookup "article").isSome = true) := by
  refine ⟨⟨bindingValD kvs "label" "N/A",
    bindingValD kvs "description" "No description available.",
    (pySplit '/' (articleStrOf kvs)).getLastD ""⟩,
    get_entity_details_run hnet hb hwf, ?_⟩
  show (pySplit '/' (articleStrOf kvs)).getLastD "" ≠ ""
    ↔ (kvs.lookup "article").isSome = true
  cases ha : kvs.lookup "article" with
  | none =>
    have hz : articleStrOf kvs = "" := by
      unfold articleStrOf
      rw [bindingValD_of_lookup_none ha]
    rw [hz]
    decide
  | some v =>
    obtain ⟨kvs2, u, hv, hval, hlast⟩ := hart v ha
    subst hv
    have hu : articleStrOf kvs = u := by
      unfold articleStrOf bindingValD
      rw [ha]
      simp [hval]
    rw [hu]
    exact ⟨fun _ => rfl, fun _ => hlast⟩

/-- C7 witness: a binding with the sitelink
`https://en.wikipedia.org/wiki/Hampi` yields the non-empty page title. -/
theorem C7_witness :
    ∃ det, get_entity_details (fun _ => some entityResp) "Q34998" "en"
        = Except.ok (some det) ∧
      (det.page_title ≠ "" ↔ (List.lookup "article" entityKvs).isSome = true) :=
  C7_page_title_iff (fun _ => some entityResp) "Q34998" "en" rfl rfl (by decide)
    (by
      intro v hv
      have hA : List.lookup "article" entityKvs
          = some (Json.obj [("type", Json.str "uri"),
            ("value", Json.str "https://en.wikipedia.org/wiki/Hampi")]) := rfl
      rw [hA] at hv
      injection hv with h
      subst h
      exact ⟨_, "https://en.wikipedia.org/wiki/Hampi", rfl, rfl, by decide⟩)

/-- C8: repeated calls with identical arguments within the one-hour expiry
window return the identical cached result without invoking the underlying
(network) function, and a call at or past expiry invokes it afresh. The cache
is modelled from the spec, as `@st.cache_data(ttl=3600)` is Streamlit library
code outside this repository. -/
theorem C8_cache_expiry {α : Type} (f : CacheKey → α) (key : CacheKey)
    (cache0 : List (CacheKey × CacheEntry α)) (t0 t1 t2 : Nat)
    (hmiss : cache0.lookup key = none)
    (h1 : t1 < t0 + 3600) (h2 : t0 + 3600 ≤ t2) :
    (cachedCall 3600 f t0 cache0 key).1 = f key ∧
    (cachedCall 3600 f t0 cache0 key).2.2 = true ∧
    cachedCall 3600 f t1 (cachedCall 3600 f t0 cache0 key).2.1 key
      = (f key, (cachedCall 3600 f t0 cache0 key).2.1, false) ∧
    (cachedCall 3600 f t2 (cachedCall 3600 f t0 cache0 key).2.1 key).2.2
      = true := by
  have hc0 : cachedCall 3600 f t0 cache0 key
      = (f key, (key, ⟨f key, t0⟩) :: cache0, true) := by
    unfold cachedCall
    rw [hmiss]
  have hlook : ((key, (⟨f key, t0⟩ : CacheEntry α)) :: cache0).lookup key
      = some ⟨f key, t0⟩ := by
    simp [List.lookup]
  refine ⟨by rw [hc0], by rw [hc0], ?_, ?_⟩
  · rw [hc0]
    unfold cachedCall
    rw [hlook]
    have ht : t1 < t0 + 3600 := h1
    simp [ht]
  · rw [hc0]
    unfold cachedCall
    rw [hlook]
    have ht : ¬ (t2 < t0 + 3600) := by omega
    simp [ht]

/-- C8 witness: a miss at second 1000, a hit at second 2000, a refresh at
second 4600. -/
theorem C8_witness :
    (cachedCall 3600 (fun k => k.args.length) 1000 [] sampleCacheKey).1 = 2 ∧
    (cachedCall 3600 (fun k => k.args.length) 1000 [] sampleCacheKey).2.2 = true ∧
    cachedCall 3600 (fun k => k.args.length) 2000
        (cachedCall 3600 (fun k => k.args.length) 1000 [] sampleCacheKey).2.1
        sampleCacheKey
      = (2, (cachedCall 3600 (fun k => k.args.length) 1000 [] sampleCacheKey).2.1,
          false) ∧
    (cachedCall 3600 (fun k => k.args.length) 4600
        (cachedCall 3600 (fun k => k.args.length) 1000 [] sampleCacheKey).2.1
        sampleCacheKey).2.2 = true :=
  C8_cache_expiry (fun k => k.args.length) sampleCacheKey [] 1000 2000 4600 rfl
    (by decide) (by decide)

/-- C9: `image_url` is always `None` or the page object's `thumbnail`
attribute; the fallback scan over section images never assigns an image. -/
theorem C9_image_from_thumbnail_only (wapi : String → String → WikiPage)
    (page_title lang_code : String) :
    (get_wiki_summary_and_image wapi page_title lang_code).image_url = none ∨
    (get_wiki_summary_and_image wapi page_title lang_code).image_url
      = (wapi lang_code page_title).thumbnail := by
  by_cases h0 : (page_title == "") = true
  · left
    simp [get_wiki_summary_and_image, h0]
  · have h0' : (page_title == "") = false := by simpa using h0
    by_cases hex : (wapi lang_code page_title).pageExists = true
    · by_cases hcond : ((wapi lang_code page_title).hasFullurl
          && !(pyIn "action=view" (wapi lang_code page_title).fullurl)) = true
      · by_cases hth : truthyStrOpt (wapi lang_code page_title).thumbnail = true
        · right
          simp [get_wiki_summary_and_image, h0', hex, hcond, hth]
        · left
          cases hthv : (wapi lang_code page_title).thumbnail with
          | none =>
            simp [get_wiki_summary_and_image, h0', hex, hcond, hthv, truthyStrOpt,
              sectionScan_none]
          | some s =>
            have hs : (s != "") = false := by
              rw [hthv] at hth
              simpa [truthyStrOpt] using hth
            simp [get_wiki_summary_and_image, h0', hex, hcond, hthv, truthyStrOpt,
              hs, sectionScan_none]
      · left
        have hcond' : ((wapi lang_code page_title).hasFullurl
            && !(pyIn "action=view" (wapi lang_code page_title).fullurl)) = false := by
          simpa using hcond
        simp [get_wiki_summary_and_image, h0', hex, hcond', truthyStrOpt,
          sectionScan_none]
    · left
      have hex' : (wapi lang_code page_title).pageExists = false := by
        simpa using hex
      simp [get_wiki_summary_and_image, h0', hex']

/-- C10: every record produced by `get_entity_details` and every timeline
event has all fields present as strings: a missing label binding yields
`'N/A'` (or `'Event'` for timeline events) and a missing description binding
yields `'No description available.'` (or `'No description.'`); no field is
absent or null. -/
theorem C10_fields_present_strings :
    (∀ (net : String → Option Json) (e l : String) (j : Json)
        (kvs : List (String × Json)) (tail : List Json),
      net (entityDetailsQuery e l) = some j →
      sparqlBindings? j = some (Json.obj kvs :: tail) →
      (kvs.all fun kv => entryWF kv.2) = true →
      ∃ det, get_entity_details net e l = Except.ok (some det) ∧
        det.label.isStr = true ∧ det.description.isStr = true ∧
        (kvs.lookup "label" = none → det.label = Json.str "N/A") ∧
        (kvs.lookup "description" = none →
          det.description = Json.str "No description available.")) ∧
    (∀ (net : String → Option Json) (r l : String) (j : Json)
        (items : List Json) (dates : List PyDateTime),
      net (timelineQuery r l) = some j → sparqlBindings? j = some items →
      timelineConform items = some dates →
      ∃ events, get_timeline_events net r l = Except.ok events ∧
        ∀ ev ∈ events, ev.label.isStr = true ∧ ev.description.isStr = true) ∧
    (∀ (kvs : List (String × Json)) (dt : PyDateTime),
      (kvs.all fun kv => entryWF kv.2) = true →
      timelineDate? (Json.obj kvs) = some dt →
      ∃ ev, timelineItem (Json.obj kvs) = Except.ok ev ∧
        (kvs.lookup "eventLabel" = none → ev.label = Json.str "Event") ∧
        (kvs.lookup "eventDescription" = none →
          ev.description = Json.str "No description.") ∧
        ev.date = strftimeDMY dt) := by
  refine ⟨?_, ?_, ?_⟩
  · intro net e l j kvs tail hnet hb hwf
    exact ⟨_, get_entity_details_run hnet hb hwf,
      isStr_bindingValD hwf, isStr_bindingValD hwf,
      fun h => bindingValD_of_lookup_none h,
      fun h => bindingValD_of_lookup_none h⟩
  · intro net r l j items dates hnet hb hc
    obtain ⟨events, hrun, _, _, hstr⟩ := get_timeline_events_run hnet hb hc
    exact ⟨events, hrun, hstr⟩
  · intro kvs dt hwf hdt
    obtain ⟨ds, hds, hfi⟩ := timelineDate?_destruct hdt
    exact ⟨_, timelineItem_eval hwf hds hfi,
      fun h => bindingValD_of_lookup_none h,
      fun h => bindingValD_of_lookup_none h, rfl⟩

/-- C10 witness: a binding with only a label gets the description sentinel and
string-valued fields. -/
theorem C10_witness :
    ∃ det, get_entity_details (fun _ => some labelOnlyResp) "Q34998" "en"
        = Except.ok (some det) ∧
      det.label.isStr = true ∧ det.description.isStr = true ∧
      (List.lookup "label" labelOnlyKvs = none → det.label = Json.str "N/A") ∧
      (List.lookup "description" labelOnlyKvs = none →
        det.description = Json.str "No description available.") :=
  C10_fields_present_strings.1 (fun _ => some labelOnlyResp) "Q34998" "en"
    labelOnlyResp labelOnlyKvs [] rfl rfl (by decide)
